import Mathlib

/-!
Verification of core invariants of an optimistic-rollup node against a shallow
embedding of its Go sources.  The embedding covers:

* `arbstate/das_reader.go` — the data-availability keyset codec and the
  aggregate-signature verifier (`DataAvailabilityKeyset.Serialize`,
  `DeserializeKeyset`, `VerifySignature`);
* the sequencer-inbox batch serializer (`SequencerInboxBatch.Serialize`);
* `arbnode/sequencer.go` — the batch-assembly loop of
  `Sequencer.sequenceTransactions` and the handling of the result of
  `SequenceTransactions`;
* the block producer `ProduceBlockAdvanced` with its per-transaction gas
  accounting and balance-conservation checks.

External collaborators (the BLS library, the EVM state-transition function,
the L1 client, the transaction signer, the retryable store and the L1 pricing
state) are modelled as explicit function parameters: the embedding quantifies
over their behaviour.  Machine integers are modelled as `Nat` with explicit
`% 2 ^ 64` (respectively `% 256`) where Go wraps.  Byte strings are `List Nat`
whose elements are byte values.
-/

/-! ## Big-endian 64-bit integer codec (`encoding/binary` BigEndian) -/

/-- Embedding of `binary.BigEndian.PutUint64`: the eight bytes of `v`,
most significant first.  A Go `byte` conversion truncates mod 256. -/
def putUint64BE (v : Nat) : List Nat :=
  [v / 2 ^ 56 % 256, v / 2 ^ 48 % 256, v / 2 ^ 40 % 256, v / 2 ^ 32 % 256,
   v / 2 ^ 24 % 256, v / 2 ^ 16 % 256, v / 2 ^ 8 % 256, v % 256]

/-- Embedding of reading a `uint64` big-endian from a byte stream
(`binary.BigEndian.Uint64` after an `io.ReadFull` of 8 bytes); `none` models
the read failing for lack of bytes.  The value is assembled with shifts and
bitwise or exactly as in `encoding/binary`. -/
def readUint64BE : List Nat → Option (Nat × List Nat)
  | b0 :: b1 :: b2 :: b3 :: b4 :: b5 :: b6 :: b7 :: rest =>
      some ((b0 <<< 56) ||| (b1 <<< 48) ||| (b2 <<< 40) ||| (b3 <<< 32) |||
            (b4 <<< 24) ||| (b5 <<< 16) ||| (b6 <<< 8) ||| b7, rest)
  | _ => none

/-! ## Data-availability keyset (`arbstate/das_reader.go`) -/

/-- Embedding of `DataAvailabilityKeyset`.  The BLS public-key type is a
parameter: claims about `VerifySignature` hold for every key representation,
and the serialization claims instantiate it with the key's byte string. -/
structure DataAvailabilityKeyset (PK : Type) where
  AssumedHonest : Nat
  PubKeys : List PK
deriving DecidableEq

/-- Operations of the external `blsSignatures` library consumed by
`VerifySignature`: `AggregatePublicKeys` and `VerifySignature` (the latter
returns a success flag or a library error). -/
structure BLSOps (PK Sig : Type) where
  aggregate : List PK → PK
  verify : Sig → List Nat → PK → Except String Bool

/-- Result of `DataAvailabilityKeyset.VerifySignature`, which in Go returns an
`error`: `notEnoughSigners` is the `"not enough signers"` error,
`badSignature` the `"bad signature"` error, and `blsError` an error returned
by the BLS library itself. -/
inductive VerifyResult
  | ok
  | notEnoughSigners
  | badSignature
  | blsError (e : String)
deriving DecidableEq

/-- Embedding of the loop of `VerifySignature` (das_reader.go lines 239-247):
walking the key list with index `i`, a key whose bit is set in the mask is
collected as a signer, otherwise the non-signer count is incremented.
Go computes `(1 << i) & signersMask` on `uint64`, so the shifted bit is
reduced mod `2 ^ 64` (a Go shift by 64 or more yields 0). -/
def collectSigners {PK : Type} (pks : List PK) (signersMask : Nat) (i : Nat) :
    List PK × Nat :=
  match pks with
  | [] => ([], 0)
  | pk :: rest =>
      let r := collectSigners rest signersMask (i + 1)
      if ((1 <<< i) % 2 ^ 64) &&& signersMask ≠ 0 then (pk :: r.1, r.2)
      else (r.1, r.2 + 1)

/-- Embedding of `DataAvailabilityKeyset.VerifySignature`
(das_reader.go lines 238-261). -/
def VerifySignature {PK Sig : Type} (ops : BLSOps PK Sig)
    (keyset : DataAvailabilityKeyset PK) (signersMask : Nat)
    (data : List Nat) (sig : Sig) : VerifyResult :=
  let r := collectSigners keyset.PubKeys signersMask 0
  if r.2 ≥ keyset.AssumedHonest then .notEnoughSigners
  else
    match ops.verify sig data (ops.aggregate r.1) with
    | .error e => .blsError e
    | .ok true => .ok
    | .ok false => .badSignature

/-- Embedding of the per-key part of `DataAvailabilityKeyset.Serialize`
(das_reader.go lines 183-190): each key's byte string, produced by
`blsSignatures.PublicKeyToBytes`, preceded by its two-byte big-endian
length `[len/256, len%256]` (Go `byte` conversions truncate mod 256).
Modelled from the spec: `PublicKeyToBytes` is outside src/, so a public key
is identified with its byte string here. -/
def serializeKeys : List (List Nat) → List Nat
  | [] => []
  | pk :: rest => (pk.length / 256 % 256) :: (pk.length % 256) :: (pk ++ serializeKeys rest)

/-- Embedding of `DataAvailabilityKeyset.Serialize` (das_reader.go lines
176-192): `assumedHonest` and the key count via the shared integer writer,
then the length-tagged keys.  Modelled from the spec: `util.Uint64ToWriter`
is outside src/; it writes the `uint64` as 8 big-endian bytes. -/
def DataAvailabilityKeyset.Serialize (keyset : DataAvailabilityKeyset (List Nat)) : List Nat :=
  putUint64BE keyset.AssumedHonest ++ putUint64BE keyset.PubKeys.length ++
    serializeKeys keyset.PubKeys

/-- Embedding of the key-reading loop of `DeserializeKeyset` (das_reader.go
lines 218-231): for each of `numKeys` keys read a two-byte big-endian length,
then that many bytes.  Modelled from the spec: `PublicKeyFromBytes` is outside
src/; it is taken to accept the byte strings `PublicKeyToBytes` produces. -/
def readKeys : Nat → List Nat → Option (List (List Nat) × List Nat)
  | 0, input => some ([], input)
  | n + 1, input =>
      match input with
      | b0 :: b1 :: rest =>
          let klen := b0 * 256 + b1
          if rest.length < klen then none
          else
            match readKeys n (rest.drop klen) with
            | some (pks, rest2) => some (rest.take klen :: pks, rest2)
            | none => none
      | _ => none

/-- Embedding of `DeserializeKeyset` (das_reader.go lines 205-236).
Modelled from the spec: `util.Uint64FromReader` is outside src/; it reads the
`uint64` as 8 big-endian bytes. -/
def DeserializeKeyset (input : List Nat) : Option (DataAvailabilityKeyset (List Nat)) :=
  match readUint64BE input with
  | none => none
  | some (assumedHonest, r1) =>
    match readUint64BE r1 with
    | none => none
    | some (numKeys, r2) =>
      if numKeys > 64 then none
      else
        match readKeys numKeys r2 with
        | some (pks, _) => some ⟨assumedHonest, pks⟩
        | none => none

/-! ## Sequencer-inbox batch serialization (`SequencerInboxBatch.Serialize`) -/

/-- Embedding of `bridgegen.ISequencerInboxTimeBounds`: the four `uint64`
time-bound fields of a sequencer batch. -/
structure ISequencerInboxTimeBounds where
  MinTimestamp : Nat
  MaxTimestamp : Nat
  MinBlockNumber : Nat
  MaxBlockNumber : Nat
deriving DecidableEq

/-- Embedding of `SequencerInboxBatch` restricted to the fields
`Serialize` consults: the time bounds, the delayed-message count and the
serialization cache (`nil` in Go, `none` here, when not yet cached).
The batch-identification fields (hashes, block and sequence numbers, data
location) only feed `GetData`, which is abstracted as a parameter below. -/
structure SequencerInboxBatch where
  AfterDelayedCount : Nat
  TimeBounds : ISequencerInboxTimeBounds
  serialized : Option (List Nat)
deriving DecidableEq

/-- Embedding of `SequencerInboxBatch.Serialize`: if a cached serialization
exists it is returned unchanged; otherwise the five header fields are
appended as 8 big-endian bytes each, then the payload returned by `GetData`,
and the result is cached on the batch.  `GetData` performs L1 RPC calls, so
it enters as the `getData` parameter; the returned batch carries the updated
cache (Go mutates the receiver). -/
def SequencerInboxBatch.Serialize (getData : Except String (List Nat))
    (m : SequencerInboxBatch) : Except String (List Nat × SequencerInboxBatch) :=
  match m.serialized with
  | some s => .ok (s, m)
  | none =>
    match getData with
    | .error e => .error e
    | .ok data =>
      let fullData :=
        putUint64BE m.TimeBounds.MinTimestamp ++ putUint64BE m.TimeBounds.MaxTimestamp ++
        putUint64BE m.TimeBounds.MinBlockNumber ++ putUint64BE m.TimeBounds.MaxBlockNumber ++
        putUint64BE m.AfterDelayedCount ++ data
      .ok (fullData, { m with serialized := some fullData })

/-- Header bytes that `SequencerInboxBatch.Serialize` prepends: the five
`uint64` fields in order, 8 big-endian bytes each. -/
def batchHeaderBytes (m : SequencerInboxBatch) : List Nat :=
  putUint64BE m.TimeBounds.MinTimestamp ++ putUint64BE m.TimeBounds.MaxTimestamp ++
  putUint64BE m.TimeBounds.MinBlockNumber ++ putUint64BE m.TimeBounds.MaxBlockNumber ++
  putUint64BE m.AfterDelayedCount

/-! ## Sequencer batching loop (`arbnode/sequencer.go`) -/

/-- Value of `maxTxDataSize` in arbnode/sequencer.go: 95% of the
SequencerInbox limit, leaving room for headers. -/
def maxTxDataSize : Nat := 112065

/-- Capacity of the sequencer's transaction queue channel
(`make(chan txQueueItem, 128)`). -/
def txQueueCapacity : Nat := 128

/-- Errors a queue item can be answered with during batch assembly. -/
inductive AdmitErr
  | ctxCancelled
  | marshalError
  | oversizedData
deriving DecidableEq

/-- Embedding of `txQueueItem` as consumed by the batch-assembly loop: an
identifying tag, whether the submitter's context is already cancelled, and
the length of `tx.MarshalBinary()` (`none` when marshalling fails).  Only
`len(txBytes)` is consulted by the loop, so the marshalled bytes are
represented by their length. -/
structure QItem where
  id : Nat
  ctxErr : Bool
  marshal : Option Nat
deriving DecidableEq

/-- Result of one run of the batch-assembly loop: the assembled batch, the
queue contents after the run, and the per-item errors delivered early. -/
structure DrainResult where
  batch : List QItem
  queueAfter : List QItem
  results : List (Nat × AdmitErr)
deriving DecidableEq

/-- Embedding of the batch-assembly loop of `Sequencer.sequenceTransactions`
(sequencer.go lines 171-219).  The queue is the FIFO channel contents; a
blocking receive on an empty queue (only possible with an empty batch) ends
the run here.  An item whose context is cancelled or whose marshalling fails
is answered and skipped; a single overlarge item is answered with
`ErrOversizedData`; an item that would push the batch total over the bound is
pushed back — to the channel tail — when the channel has room (fewer than
`txQueueCapacity` buffered items), otherwise answered with
`ErrOversizedData`, and either way the batch is closed; otherwise the item
joins the batch. -/
def drainLoop : List QItem → List QItem → Nat → List (Nat × AdmitErr) → DrainResult
  | [], batch, _, res => ⟨batch, [], res⟩
  | q :: rest, batch, total, res =>
    if q.ctxErr then drainLoop rest batch total (res ++ [(q.id, .ctxCancelled)])
    else
      match q.marshal with
      | none => drainLoop rest batch total (res ++ [(q.id, .marshalError)])
      | some n =>
        if n > maxTxDataSize then drainLoop rest batch total (res ++ [(q.id, .oversizedData)])
        else if total + n > maxTxDataSize then
          if rest.length < txQueueCapacity then ⟨batch, rest ++ [q], res⟩
          else ⟨batch, rest, res ++ [(q.id, .oversizedData)]⟩
        else drainLoop rest (batch ++ [q]) (total + n) res

/-- Error returned by `txStreamer.SequenceTransactions` as seen by the
sequencer: the distinguished `ErrRetrySequencer` or any other error. -/
inductive StreamerErr
  | retrySequencer
  | other (code : Nat)
deriving DecidableEq

/-- Batch-level error value the sequencer ends up holding after the
result-count check: either the streamer's error, or the
`"unexpected number of error results"` error constructed on a length
mismatch. -/
inductive BatchErr
  | fromStreamer (e : StreamerErr)
  | errorCountMismatch (numResults numTxes : Nat)
deriving DecidableEq

/-- Whether `errors.Is(err, ErrRetrySequencer)` holds for a batch error. -/
def BatchErr.isRetry : BatchErr → Bool
  | .fromStreamer .retrySequencer => true
  | _ => false

/-- How one run of `sequenceTransactions` disposes of the batch after
`SequenceTransactions` returns.  `processAbort` stands for a fatal,
process-ending reaction (a panic); `requeueOrForward` is the
`ErrRetrySequencer` path; `broadcastToAll` delivers one error to every
submitter in the batch after a `log.Warn`; `deliverPerTx` walks
`hooks.TxErrors` delivering per-transaction results. -/
inductive BatchOutcome
  | processAbort
  | requeueOrForward
  | broadcastToAll (e : BatchErr)
  | deliverPerTx (numResults : Nat)
deriving DecidableEq

/-- Embedding of sequencer.go lines 256-297: the error of
`SequenceTransactions` is replaced, when it is `nil` and the length of
`hooks.TxErrors` differs from the number of batched transactions, by the
constructed mismatch error; `ErrRetrySequencer` triggers the forward/requeue
path; any other non-nil error is logged and broadcast to all submitters;
otherwise results are delivered per transaction. -/
def handleSequenceOutcome (res : Option StreamerErr) (numTxErrors numTxes : Nat) :
    BatchOutcome :=
  let err : Option BatchErr :=
    match res with
    | some e => some (.fromStreamer e)
    | none =>
        if numTxErrors ≠ numTxes then some (.errorCountMismatch numTxErrors numTxes)
        else none
  match err with
  | some e => if e.isRetry then .requeueOrForward else .broadcastToAll e
  | none => .deliverPerTx numTxErrors

/-! ## Block producer (`ProduceBlockAdvanced`) -/

/-- Value of `params.TxGas` (geth): the intrinsic gas of a plain transfer. -/
def TxGas : Nat := 21000

/-- Value of `math.MaxUint64`. -/
def MaxUint64 : Nat := 2 ^ 64 - 1

/-- Inner payload of a transaction, reduced to what the producer inspects:
the transaction type tag and the fields feeding the expected balance delta
(`ArbitrumDepositTx.Value`, `ArbitrumSubmitRetryableTx.DepositValue`) or
redeem processing (`ArbitrumRetryTx.TicketId`). -/
inductive TxInner
  | internalTx
  | depositTx (value : Int)
  | submitRetryableTx (depositValue : Int)
  | retryTx (ticketId : Nat)
  | legacyTx (tag : Nat)
deriving DecidableEq

/-- Embedding of a transaction: its inner payload and `tx.Gas()`. -/
structure Tx where
  inner : TxInner
  gas : Nat
deriving DecidableEq

/-- Topic classification of a receipt log as matched by the producer's
balance bookkeeping (lines 465-490): the two `ArbSys` L2-to-L1 event ids
or anything else. -/
inductive LogKind
  | l2ToL1Transaction
  | l2ToL1Tx
  | otherTopic
deriving DecidableEq

/-- Embedding of a receipt log: whether its address is `ArbSysAddress`, its
topic classification, whether the event parses, and the parsed call value. -/
structure Log where
  atArbSys : Bool
  kind : LogKind
  parseOk : Bool
  callvalue : Int
deriving DecidableEq

/-- Embedding of a receipt, reduced to the logs the producer scans. -/
structure Receipt where
  logs : List Log
deriving DecidableEq

/-- Per-transaction errors of the producer: `core.ErrGasLimitReached`,
`core.ErrIntrinsicGas`, or any error coming out of the signer, the hooks or
`core.ApplyTransaction`. -/
inductive TxErr
  | gasLimitReached
  | intrinsicGas
  | other (code : Nat)
deriving DecidableEq

/-- Embedding of the journaled `state.StateDB` as the producer observes it:
its unexpected balance delta plus an opaque remainder standing for the whole
account state.  `Snapshot`/`RevertToSnapshot` are modelled by keeping and
restoring the entire value (the journal restores all mutations). -/
structure StateDB where
  unexpectedBalanceDelta : Int
  rest : Nat
deriving DecidableEq

/-- Successful result of `core.ApplyTransaction` as consumed by the
producer: the receipt, the scheduled retryable redeems
(`result.ScheduledTxes`), the state after execution, and the remaining gas
pool (`ApplyTransaction` mutates the pool through a pointer). -/
structure ApplyOk where
  receipt : Receipt
  scheduled : List Tx
  newState : StateDB
  gasPoolAfter : Nat
deriving DecidableEq

/-- Embedding of `SequencingHooks`: the accumulated per-transaction error
vector, the early-discard flag, and the two filters.  The filters receive
the state, the transaction, the recovered sender, and (for the post filter)
the data gas and the receipt. -/
structure SequencingHooks where
  TxErrors : List (Option TxErr)
  DiscardInvalidTxsEarly : Bool
  PreTxFilter : StateDB → Tx → Nat → Option TxErr
  PostTxFilter : StateDB → Tx → Nat → Nat → Receipt → Option TxErr

/-- Embedding of `noopSequencingHooks()`. -/
def noopSequencingHooks : SequencingHooks where
  TxErrors := []
  DiscardInvalidTxsEarly := false
  PreTxFilter := fun _ _ _ => none
  PostTxFilter := fun _ _ _ _ _ => none

/-- Inputs of `ProduceBlockAdvanced` that come from outside the loop:
chain and pricing configuration read from the ArbOS state, and the external
collaborators (signer, L1 pricing, retryable store, EVM) as functions. -/
structure ProduceParams where
  gasPrice : Nat
  perBlockGasLimit : Nat
  gethBlockGasLimit : Nat
  debugMode : Bool
  startTxGas : Nat
  sender : Tx → Except TxErr Nat
  posterCost : StateDB → Tx → Nat
  openRetryable : StateDB → Nat → Bool
  applyTx : StateDB → Tx → Nat → Except TxErr ApplyOk

/-- Embedding of the data-gas computation (ArbOwner.go part 2, lines
359-374): zero unless the gas price is positive, in which case it is the
poster cost divided by the gas price, saturated to `MaxUint64` when that
quotient does not fit a `uint64`, and finally clamped to `tx.Gas()`. -/
def dataGasFor (gasPrice posterCost txGas : Nat) : Nat :=
  let dataGas :=
    if 0 < gasPrice then
      let posterCostInL2Gas := posterCost / gasPrice
      if posterCostInL2Gas < 2 ^ 64 then posterCostInL2Gas else MaxUint64
    else 0
  if dataGas > txGas then txGas else dataGas

/-- Embedding of the compute-gas floor (lines 376-383, non-discard path):
`tx.Gas() - dataGas`, raised to `TxGas` when below it. -/
def computeGasFor (txGas dataGas : Nat) : Nat :=
  let computeGas := txGas - dataGas
  if computeGas < TxGas then TxGas else computeGas

/-- Outcome of one attempt to run a transaction (the closure at lines
344-410): an error together with the state the loop continues from (the
snapshot state, except after a post-filter error, where Go does not revert),
or success carrying the `ApplyTransaction` result and the data gas. -/
inductive AttemptOutcome
  | failed (e : TxErr) (stateAfter : StateDB)
  | applied (r : ApplyOk) (dataGas : Nat)
deriving DecidableEq

/-- Embedding of the closure at ArbOwner.go part 2, lines 344-410: the
early block-gas guard, sender recovery, the pre-transaction filter, the
data/compute gas computation with the early intrinsic-gas discard, the
second block-gas guard (only once a user transaction has been processed),
`ApplyTransaction` (with snapshot revert on error), and the
post-transaction filter. -/
def attemptTx (P : ProduceParams) (hooks : SequencingHooks) (isUserTx : Bool)
    (userTxsProcessed blockGasLeft gethGas : Nat) (statedb : StateDB) (tx : Tx) :
    AttemptOutcome :=
  if blockGasLeft < TxGas ∧ isUserTx then .failed .gasLimitReached statedb
  else
    match P.sender tx with
    | .error e => .failed e statedb
    | .ok sender =>
      match hooks.PreTxFilter statedb tx sender with
      | some e => .failed e statedb
      | none =>
        let dataGas := dataGasFor P.gasPrice (P.posterCost statedb tx) tx.gas
        if tx.gas - dataGas < TxGas ∧ hooks.DiscardInvalidTxsEarly then
          .failed .intrinsicGas statedb
        else
          let computeGas := computeGasFor tx.gas dataGas
          if computeGas > blockGasLeft ∧ isUserTx ∧ userTxsProcessed > 0 then
            .failed .gasLimitReached statedb
          else
            match P.applyTx statedb tx gethGas with
            | .error e => .failed e statedb
            | .ok r =>
              match hooks.PostTxFilter r.newState tx sender dataGas r.receipt with
              | some e => .failed e r.newState
              | none => .applied r dataGas

/-- Embedding of the per-type expected-balance bookkeeping (lines 432-439):
an `ArbitrumDepositTx` adds its value, an `ArbitrumSubmitRetryableTx` adds
its deposit value. -/
def applyBalanceDeltaForTx (tx : Tx) (d : Int) : Int :=
  match tx.inner with
  | .depositTx v => d + v
  | .submitRetryableTx v => d + v
  | _ => d

/-- Embedding of the receipt-log scan (lines 465-490): every parseable
L2-to-L1 event at the `ArbSys` address subtracts its call value from the
expected balance delta; parse failures are only logged. -/
def applyLogBalanceDelta (logs : List Log) (d : Int) : Int :=
  logs.foldl
    (fun acc l =>
      if l.atArbSys then
        match l.kind, l.parseOk with
        | .l2ToL1Transaction, true => acc - l.callvalue
        | .l2ToL1Tx, true => acc - l.callvalue
        | _, _ => acc
      else acc) d

/-- Mutable state of the production loop: the two transaction queues, the
block built so far, the state database, the block-local gas budget, the
shared geth gas pool, the user-transaction counter, the sequencing hooks'
error vector and the expected balance delta. -/
structure LoopState where
  txes : List Tx
  redeems : List Tx
  complete : List Tx
  receipts : List Receipt
  statedb : StateDB
  blockGasLeft : Nat
  gethGas : Nat
  userTxsProcessed : Nat
  txErrors : List (Option TxErr)
  expectedBalanceDelta : Int
deriving DecidableEq

/-- Reasons `ProduceBlockAdvanced` panics. -/
inductive PanicReason
  | dirtyStateDB
  | retryNotRetryable
  | gasPoolGaveBack
  | usedMoreGasThanLimit
  | receiptCountMismatch
  | balanceMismatch
deriving DecidableEq

/-- Result of one pass through the production loop body. -/
inductive StepResult
  | done (ls : LoopState)
  | next (ls : LoopState)
  | died (r : PanicReason)
deriving DecidableEq

/-- Embedding of the tail of the loop body (lines 412-503) after a
transaction was chosen and attempted.  `hooks` is the hook set selected for
this transaction (the sequencing hooks for a user transaction, fresh noop
hooks otherwise); only a user transaction's error lands in the sequencing
hooks' `TxErrors`.  On failure the block-local gas budget is docked `TxGas`
unless the selected hooks discard invalid transactions early.  On success
the balance bookkeeping, the two gas-pool panics, the compute-used floor,
scheduled redeems, the log scan and the block append all follow the source
order. -/
def processTx (P : ProduceParams) (hooks : SequencingHooks) (isUserTx : Bool)
    (tx : Tx) (ls : LoopState) : StepResult :=
  match attemptTx P hooks isUserTx ls.userTxsProcessed ls.blockGasLeft ls.gethGas
      ls.statedb tx with
  | .failed e st =>
    let ls1 := { ls with
      statedb := st
      txErrors := if isUserTx then ls.txErrors ++ [some e] else ls.txErrors }
    if hooks.DiscardInvalidTxsEarly then .next ls1
    else
      .next { ls1 with
        blockGasLeft := if ls1.blockGasLeft > TxGas then ls1.blockGasLeft - TxGas else 0
        userTxsProcessed :=
          if isUserTx then ls1.userTxsProcessed + 1 else ls1.userTxsProcessed }
  | .applied r dataGas =>
    let txErrors := if isUserTx then ls.txErrors ++ [none] else ls.txErrors
    let expected1 := applyBalanceDeltaForTx tx ls.expectedBalanceDelta
    if r.gasPoolAfter > ls.gethGas then .died .gasPoolGaveBack
    else
      let gasUsed := ls.gethGas - r.gasPoolAfter
      let computeUsed :=
        if gasUsed < dataGas then TxGas
        else if gasUsed - dataGas < TxGas then TxGas
        else gasUsed - dataGas
      if gasUsed > tx.gas then .died .usedMoreGasThanLimit
      else
        .next { ls with
          statedb := r.newState
          txErrors := txErrors
          expectedBalanceDelta := applyLogBalanceDelta r.receipt.logs expected1
          gethGas := r.gasPoolAfter
          redeems := ls.redeems ++ r.scheduled
          blockGasLeft :=
            if ls.blockGasLeft > computeUsed then ls.blockGasLeft - computeUsed else 0
          complete := ls.complete ++ [tx]
          receipts := ls.receipts ++ [r.receipt]
          userTxsProcessed :=
            if isUserTx then ls.userTxsProcessed + 1 else ls.userTxsProcessed }

/-- Embedding of the head of the loop body (lines 313-339): redeems are
drained FIFO before the next queued transaction; a redeem that is not an
`ArbitrumRetryTx` is a panic; a redeem whose ticket was already consumed is
dropped silently; a queued transaction that is not an internal transaction
runs under the sequencing hooks as a user transaction.  The loop guard
(both queues empty) ends the loop. -/
def produceStep (P : ProduceParams) (seqHooks : SequencingHooks) (ls : LoopState) :
    StepResult :=
  match ls.redeems with
  | tx :: rest =>
    (match tx.inner with
     | .retryTx ticketId =>
         if P.openRetryable ls.statedb ticketId then
           processTx P noopSequencingHooks false tx { ls with redeems := rest }
         else .next { ls with redeems := rest }
     | _ => .died .retryNotRetryable)
  | [] =>
    match ls.txes with
    | [] => .done ls
    | tx :: rest =>
      match tx.inner with
      | .internalTx => processTx P noopSequencingHooks false tx { ls with txes := rest }
      | _ => processTx P seqHooks true tx { ls with txes := rest }

/-- Iteration of `produceStep`.  The Go loop can in principle run as long as
applied transactions keep scheduling redeems, so the embedding carries a
fuel bound; `none` means the bound was hit before the loop finished. -/
def produceLoop (P : ProduceParams) (seqHooks : SequencingHooks) :
    Nat → LoopState → Option (Except PanicReason LoopState)
  | 0, _ => none
  | fuel + 1, ls =>
    match produceStep P seqHooks ls with
    | .done ls1 => some (.ok ls1)
    | .died r => some (.error r)
    | .next ls1 => produceLoop P seqHooks fuel ls1

/-- Embedding of the produced block, reduced to the fields the claims
consult: the transaction list handed to `types.NewBlock` and the header's
8-byte nonce.  The roots, bloom and hash touch-ups (lines 507-523) go
through external hashing and do not feed back into these fields. -/
structure Block where
  txs : List Tx
  nonce : List Nat
deriving DecidableEq

/-- Overall outcome of `ProduceBlockAdvanced`: a Go panic, or the block and
receipts together with the final sequencing-hook error vector and whether
the closing balance check logged a burn on a real chain. -/
inductive ProduceOutcome
  | outOfFuel
  | panicked (r : PanicReason)
  | success (block : Block) (receipts : List Receipt) (txErrors : List (Option TxErr))
      (burnLogged : Bool)
deriving DecidableEq

/-- Initial loop state of `ProduceBlockAdvanced` (lines 283-311): the
internal start-of-block transaction is prepended to the message's
transactions, both accumulators start empty, the block-local budget is the
ArbOS per-block gas limit, and the shared pool starts at the fixed geth
block gas limit. -/
def initLoopState (P : ProduceParams) (seqHooks : SequencingHooks) (txes : List Tx)
    (statedb : StateDB) : LoopState where
  txes := ⟨.internalTx, P.startTxGas⟩ :: txes
  redeems := []
  complete := []
  receipts := []
  statedb := statedb
  blockGasLeft := P.perBlockGasLimit
  gethGas := P.gethBlockGasLimit
  userTxsProcessed := 0
  txErrors := seqHooks.TxErrors
  expectedBalanceDelta := 0

/-- Embedding of the epilogue of `ProduceBlockAdvanced` (lines 506-540):
the delayed-message count is packed big-endian into the header nonce, the
block is assembled, the receipt-count check panics on mismatch, and the
closing balance check panics on a mint or in debug mode, logs a burn on a
real chain, and otherwise returns normally. -/
def finishProduce (P : ProduceParams) (delayedMessagesRead : Nat) (ls : LoopState) :
    ProduceOutcome :=
  let block : Block := ⟨ls.complete, putUint64BE delayedMessagesRead⟩
  if block.txs.length ≠ ls.receipts.length then .panicked .receiptCountMismatch
  else
    let balanceDelta := ls.statedb.unexpectedBalanceDelta
    if balanceDelta ≠ ls.expectedBalanceDelta then
      if balanceDelta > ls.expectedBalanceDelta ∨ P.debugMode = true then
        .panicked .balanceMismatch
      else .success block ls.receipts ls.txErrors true
    else .success block ls.receipts ls.txErrors false

/-- Embedding of `ProduceBlockAdvanced` (ArbOwner.go part 2, lines 263-541).
`OpenSystemArbosState` is modelled as succeeding (its failure is also a
panic, before anything else happens); the dirty-state check then panics on a
non-zero unexpected balance delta (`big.Int.BitLen() != 0`), and otherwise
the production loop runs followed by the epilogue. -/
def ProduceBlockAdvanced (P : ProduceParams) (seqHooks : SequencingHooks)
    (txes : List Tx) (delayedMessagesRead : Nat) (statedb : StateDB) (fuel : Nat) :
    ProduceOutcome :=
  if statedb.unexpectedBalanceDelta ≠ 0 then .panicked .dirtyStateDB
  else
    match produceLoop P seqHooks fuel (initLoopState P seqHooks txes statedb) with
    | none => .outOfFuel
    | some (.error r) => .panicked r
    | some (.ok ls) => finishProduce P delayedMessagesRead ls

/-! ## Concrete instances used by witnesses -/

/-- External collaborators for witness runs: zero gas price and block gas
limit, the EVM function failing every transaction. -/
def trivialParams : ProduceParams where
  gasPrice := 0
  perBlockGasLimit := 0
  gethBlockGasLimit := 1000000
  debugMode := false
  startTxGas := 0
  sender := fun _ => .ok 0
  posterCost := fun _ _ => 0
  openRetryable := fun _ _ => false
  applyTx := fun _ _ _ => .error (.other 0)

/-- External collaborators for witness runs: zero gas price and block gas
limit, the EVM function applying every transaction without using gas. -/
def applyOkParams : ProduceParams where
  gasPrice := 0
  perBlockGasLimit := 0
  gethBlockGasLimit := 1000000
  debugMode := false
  startTxGas := 21000
  sender := fun _ => .ok 0
  posterCost := fun _ _ => 0
  openRetryable := fun _ _ => false
  applyTx := fun st _ g => .ok ⟨⟨[]⟩, [], st, g⟩

/-- Sequencing hooks as the sequencer builds them: no filters and
`DiscardInvalidTxsEarly` set. -/
def discardHooks : SequencingHooks where
  TxErrors := []
  DiscardInvalidTxsEarly := true
  PreTxFilter := fun _ _ _ => none
  PostTxFilter := fun _ _ _ _ _ => none

/-- Final loop state of the witness run of `produceLoop` under
`trivialParams` with no user transactions. -/
def lsFinalC3 : LoopState where
  txes := []
  redeems := []
  complete := []
  receipts := []
  statedb := ⟨0, 0⟩
  blockGasLeft := 0
  gethGas := 1000000
  userTxsProcessed := 0
  txErrors := []
  expectedBalanceDelta := 0

/-! ## Helper lemmas: big-endian codec -/

/-- Bitwise or with a shifted value is addition when the low part fits. -/
theorem lor_as_add (a b k : Nat) (hb : b < 2 ^ k) : (a * 2 ^ k) ||| b = a * 2 ^ k + b := by
  rw [Nat.mul_comm a (2 ^ k)]
  exact (Nat.mul_add_lt_is_or hb a).symm

set_option maxHeartbeats 1000000 in
/-- Value assembled by `readUint64BE` from eight byte values, as a sum. -/
theorem beVal_eq (d0 d1 d2 d3 d4 d5 d6 d7 : Nat) (h1 : d1 < 256)
    (h2 : d2 < 256) (h3 : d3 < 256) (h4 : d4 < 256) (h5 : d5 < 256) (h6 : d6 < 256)
    (h7 : d7 < 256) :
    (d0 <<< 56) ||| (d1 <<< 48) ||| (d2 <<< 40) ||| (d3 <<< 32) ||| (d4 <<< 24) |||
      (d5 <<< 16) ||| (d6 <<< 8) ||| d7
      = d0 * 2 ^ 56 + d1 * 2 ^ 48 + d2 * 2 ^ 40 + d3 * 2 ^ 32 + d4 * 2 ^ 24 +
        d5 * 2 ^ 16 + d6 * 2 ^ 8 + d7 := by
  have b1 : d1 * 2 ^ 48 < 2 ^ 56 := by
    calc d1 * 2 ^ 48 < 256 * 2 ^ 48 :=
          Nat.mul_lt_mul_of_lt_of_le h1 (le_refl _) (by positivity)
      _ = 2 ^ 56 := by norm_num
  have b2 : d2 * 2 ^ 40 < 2 ^ 48 := by
    calc d2 * 2 ^ 40 < 256 * 2 ^ 40 :=
          Nat.mul_lt_mul_of_lt_of_le h2 (le_refl _) (by positivity)
      _ = 2 ^ 48 := by norm_num
  have b3 : d3 * 2 ^ 32 < 2 ^ 40 := by
    calc d3 * 2 ^ 32 < 256 * 2 ^ 32 :=
          Nat.mul_lt_mul_of_lt_of_le h3 (le_refl _) (by positivity)
      _ = 2 ^ 40 := by norm_num
  have b4 : d4 * 2 ^ 24 < 2 ^ 32 := by
    calc d4 * 2 ^ 24 < 256 * 2 ^ 24 :=
          Nat.mul_lt_mul_of_lt_of_le h4 (le_refl _) (by positivity)
      _ = 2 ^ 32 := by norm_num
  have b5 : d5 * 2 ^ 16 < 2 ^ 24 := by
    calc d5 * 2 ^ 16 < 256 * 2 ^ 16 :=
          Nat.mul_lt_mul_of_lt_of_le h5 (le_refl _) (by positivity)
      _ = 2 ^ 24 := by norm_num
  have b6 : d6 * 2 ^ 8 < 2 ^ 16 := by
    calc d6 * 2 ^ 8 < 256 * 2 ^ 8 :=
          Nat.mul_lt_mul_of_lt_of_le h6 (le_refl _) (by positivity)
      _ = 2 ^ 16 := by norm_num
  simp only [Nat.shiftLeft_eq]
  have e1 : d0 * 2 ^ 56 ||| d1 * 2 ^ 48 = (d0 * 2 ^ 8 + d1) * 2 ^ 48 := by
    rw [lor_as_add d0 (d1 * 2 ^ 48) 56 b1]; ring
  have e2 : (d0 * 2 ^ 8 + d1) * 2 ^ 48 ||| d2 * 2 ^ 40
      = (d0 * 2 ^ 16 + d1 * 2 ^ 8 + d2) * 2 ^ 40 := by
    rw [lor_as_add _ (d2 * 2 ^ 40) 48 b2]; ring
  have e3 : (d0 * 2 ^ 16 + d1 * 2 ^ 8 + d2) * 2 ^ 40 ||| d3 * 2 ^ 32
      = (d0 * 2 ^ 24 + d1 * 2 ^ 16 + d2 * 2 ^ 8 + d3) * 2 ^ 32 := by
    rw [lor_as_add _ (d3 * 2 ^ 32) 40 b3]; ring
  have e4 : (d0 * 2 ^ 24 + d1 * 2 ^ 16 + d2 * 2 ^ 8 + d3) * 2 ^ 32 ||| d4 * 2 ^ 24
      = (d0 * 2 ^ 32 + d1 * 2 ^ 24 + d2 * 2 ^ 16 + d3 * 2 ^ 8 + d4) * 2 ^ 24 := by
    rw [lor_as_add _ (d4 * 2 ^ 24) 32 b4]; ring
  have e5 : (d0 * 2 ^ 32 + d1 * 2 ^ 24 + d2 * 2 ^ 16 + d3 * 2 ^ 8 + d4) * 2 ^ 24 |||
      d5 * 2 ^ 16
      = (d0 * 2 ^ 40 + d1 * 2 ^ 32 + d2 * 2 ^ 24 + d3 * 2 ^ 16 + d4 * 2 ^ 8 + d5)
        * 2 ^ 16 := by
    rw [lor_as_add _ (d5 * 2 ^ 16) 24 b5]; ring
  have e6 : (d0 * 2 ^ 40 + d1 * 2 ^ 32 + d2 * 2 ^ 24 + d3 * 2 ^ 16 + d4 * 2 ^ 8 + d5)
      * 2 ^ 16 ||| d6 * 2 ^ 8
      = (d0 * 2 ^ 48 + d1 * 2 ^ 40 + d2 * 2 ^ 32 + d3 * 2 ^ 24 + d4 * 2 ^ 16 +
          d5 * 2 ^ 8 + d6) * 2 ^ 8 := by
    rw [lor_as_add _ (d6 * 2 ^ 8) 16 b6]; ring
  have e7 : (d0 * 2 ^ 48 + d1 * 2 ^ 40 + d2 * 2 ^ 32 + d3 * 2 ^ 24 + d4 * 2 ^ 16 +
      d5 * 2 ^ 8 + d6) * 2 ^ 8 ||| d7
      = (d0 * 2 ^ 48 + d1 * 2 ^ 40 + d2 * 2 ^ 32 + d3 * 2 ^ 24 + d4 * 2 ^ 16 +
          d5 * 2 ^ 8 + d6) * 2 ^ 8 + d7 := by
    rw [lor_as_add _ d7 8 h7]
  rw [e1, e2, e3, e4, e5, e6, e7]; ring

set_option maxHeartbeats 1000000 in
/-- Reading back the eight bytes written for a `uint64` recovers the value. -/
theorem readUint64BE_putUint64BE (v : Nat) (rest : List Nat) (h : v < 2 ^ 64) :
    readUint64BE (putUint64BE v ++ rest) = some (v, rest) := by
  have hlt : ∀ x : Nat, x % 256 < 256 := fun x => Nat.mod_lt _ (by norm_num)
  have e := beVal_eq (v / 2 ^ 56 % 256) (v / 2 ^ 48 % 256) (v / 2 ^ 40 % 256)
    (v / 2 ^ 32 % 256) (v / 2 ^ 24 % 256) (v / 2 ^ 16 % 256) (v / 2 ^ 8 % 256)
    (v % 256) (hlt _) (hlt _) (hlt _) (hlt _) (hlt _) (hlt _) (hlt _)
  simp only [putUint64BE, List.cons_append, List.nil_append, readUint64BE, e,
    Option.some.injEq, Prod.mk.injEq]
  refine ⟨?_, trivial⟩
  have m1 : v % 2 ^ 64 = v % 2 ^ 56 + 2 ^ 56 * (v / 2 ^ 56 % 256) := by
    have : (2 : Nat) ^ 64 = 2 ^ 56 * 256 := by norm_num
    rw [this, Nat.mod_mul]
  have m2 : v % 2 ^ 56 = v % 2 ^ 48 + 2 ^ 48 * (v / 2 ^ 48 % 256) := by
    have : (2 : Nat) ^ 56 = 2 ^ 48 * 256 := by norm_num
    rw [this, Nat.mod_mul]
  have m3 : v % 2 ^ 48 = v % 2 ^ 40 + 2 ^ 40 * (v / 2 ^ 40 % 256) := by
    have : (2 : Nat) ^ 48 = 2 ^ 40 * 256 := by norm_num
    rw [this, Nat.mod_mul]
  have m4 : v % 2 ^ 40 = v % 2 ^ 32 + 2 ^ 32 * (v / 2 ^ 32 % 256) := by
    have : (2 : Nat) ^ 40 = 2 ^ 32 * 256 := by norm_num
    rw [this, Nat.mod_mul]
  have m5 : v % 2 ^ 32 = v % 2 ^ 24 + 2 ^ 24 * (v / 2 ^ 24 % 256) := by
    have : (2 : Nat) ^ 32 = 2 ^ 24 * 256 := by norm_num
    rw [this, Nat.mod_mul]
  have m6 : v % 2 ^ 24 = v % 2 ^ 16 + 2 ^ 16 * (v / 2 ^ 16 % 256) := by
    have : (2 : Nat) ^ 24 = 2 ^ 16 * 256 := by norm_num
    rw [this, Nat.mod_mul]
  have m7 : v % 2 ^ 16 = v % 2 ^ 8 + 2 ^ 8 * (v / 2 ^ 8 % 256) := by
    have : (2 : Nat) ^ 16 = 2 ^ 8 * 256 := by norm_num
    rw [this, Nat.mod_mul]
  have mv : v % 2 ^ 64 = v := Nat.mod_eq_of_lt h
  have m8 : v % 2 ^ 8 = v % 256 := by norm_num
  rw [mv, m2, m3, m4, m5, m6, m7, m8] at m1
  linarith [m1]

/-! ## DA keyset verifier: claims C1 and C10 -/

/-- Go bit test of the verifier loop, for indices below 64, as `Nat.testBit`. -/
theorem shiftBit_ne (mask i : Nat) (h : i < 64) :
    (((1 <<< i) % 2 ^ 64) &&& mask ≠ 0) ↔ mask.testBit i = true := by
  have hp : (1 <<< i) % 2 ^ 64 = 2 ^ i := by
    rw [Nat.shiftLeft_eq, one_mul,
      Nat.mod_eq_of_lt (Nat.pow_lt_pow_right (by norm_num) h)]
  rw [hp, Nat.and_comm, Nat.and_two_pow]
  cases hb : mask.testBit i <;> simp [hb]

/-- Characterisation of the verifier loop: the collected signers are the keys
whose index bit is set in the mask, and the non-signer count is the number of
keys whose index bit is clear. -/
theorem collectSigners_eq {PK : Type} (pks : List PK) (mask : Nat) :
    ∀ i, i + pks.length ≤ 64 →
    collectSigners pks mask i
      = (((List.enumFrom i pks).filter (fun p => mask.testBit p.1)).map Prod.snd,
         ((List.enumFrom i pks).filter (fun p => ! mask.testBit p.1)).length) := by
  induction pks with
  | nil =>
    intro i _
    simp [collectSigners, List.enumFrom]
  | cons pk rest ih =>
    intro i h
    have hi : i < 64 := by
      simp only [List.length_cons] at h; omega
    have hrec := ih (i + 1) (by simp only [List.length_cons] at h; omega)
    simp only [collectSigners, hrec, List.enumFrom, List.filter_cons]
    by_cases hb : mask.testBit i
    · rw [if_pos ((shiftBit_ne mask i hi).2 hb)]
      simp [hb]
    · rw [if_neg (fun hc => hb (by simpa using (shiftBit_ne mask i hi).1 hc))]
      simp [hb]

/-- C1: for a keyset of at most 64 keys, `VerifySignature` counts the keys
whose bit in the signers mask is clear as non-signers; when that count
reaches `AssumedHonest` it returns the not-enough-signers error — for every
behaviour of the BLS library, which is therefore not consulted — and
otherwise its result is success, bad-signature or a BLS library error,
determined by the BLS verification of the aggregate of exactly the keys
whose bits are set. -/
theorem verifySignature_honesty_threshold {PK Sig : Type} (ops : BLSOps PK Sig)
    (keyset : DataAvailabilityKeyset PK) (s : Nat) (data : List Nat) (sig : Sig)
    (hn : keyset.PubKeys.length ≤ 64) :
    ((keyset.PubKeys.enum.filter (fun p => ! s.testBit p.1)).length ≥ keyset.AssumedHonest →
        VerifySignature ops keyset s data sig = .notEnoughSigners)
    ∧ ((keyset.PubKeys.enum.filter (fun p => ! s.testBit p.1)).length < keyset.AssumedHonest →
        VerifySignature ops keyset s data sig =
          match ops.verify sig data
              (ops.aggregate
                ((keyset.PubKeys.enum.filter (fun p => s.testBit p.1)).map Prod.snd)) with
          | .error e => .blsError e
          | .ok true => .ok
          | .ok false => .badSignature) := by
  have hc := collectSigners_eq keyset.PubKeys s 0 (by omega)
  have henum : List.enumFrom 0 keyset.PubKeys = keyset.PubKeys.enum := rfl
  rw [henum] at hc
  constructor
  · intro hge
    unfold VerifySignature
    rw [hc]
    exact if_pos hge
  · intro hlt
    unfold VerifySignature
    rw [hc]
    rw [if_neg (by omega)]

/-- C1 witness: a 2-key keyset with threshold 1 and mask 0b01 has one
non-signer, so verification fails with not-enough-signers. -/
theorem verifySignature_honesty_threshold_witness :
    VerifySignature ⟨fun _ => 0, fun _ _ _ => .ok true⟩
      (⟨1, [5, 7]⟩ : DataAvailabilityKeyset Nat) 1 [] 0 = .notEnoughSigners :=
  (verifySignature_honesty_threshold ⟨fun _ => 0, fun _ _ _ => .ok true⟩
    ⟨1, [5, 7]⟩ 1 [] 0 (by decide)).1 (by decide)

/-- C10: a keyset whose `AssumedHonest` threshold is 0 makes
`VerifySignature` return the not-enough-signers error for every signers
mask, every payload and every BLS behaviour: the non-signer count is always
at least 0. -/
theorem verifySignature_assumedHonest_zero {PK Sig : Type} (ops : BLSOps PK Sig)
    (keyset : DataAvailabilityKeyset PK) (s : Nat) (data : List Nat) (sig : Sig)
    (h0 : keyset.AssumedHonest = 0) :
    VerifySignature ops keyset s data sig = .notEnoughSigners := by
  unfold VerifySignature
  rw [h0]
  exact if_pos (Nat.zero_le _)

/-- C10 witness: threshold 0 with all three key bits set in the mask still
fails with not-enough-signers. -/
theorem verifySignature_assumedHonest_zero_witness :
    VerifySignature ⟨fun _ => 0, fun _ _ _ => .ok true⟩
      (⟨0, [3, 4, 5]⟩ : DataAvailabilityKeyset Nat) 7 [1] 0 = .notEnoughSigners :=
  verifySignature_assumedHonest_zero ⟨fun _ => 0, fun _ _ _ => .ok true⟩
    ⟨0, [3, 4, 5]⟩ 7 [1] 0 rfl

/-! ## Keyset serialization round trip: claim C7 -/

/-- Reading back the length-tagged keys written by `serializeKeys` recovers
the key list and leaves the remaining input untouched. -/
theorem readKeys_serializeKeys (pks : List (List Nat)) (rest : List Nat)
    (hlen : ∀ pk ∈ pks, pk.length < 65536) :
    readKeys pks.length (serializeKeys pks ++ rest) = some (pks, rest) := by
  induction pks with
  | nil => simp [serializeKeys, readKeys]
  | cons pk tail ih =>
    have hpk : pk.length < 65536 := hlen pk (by simp)
    have htail : ∀ q ∈ tail, q.length < 65536 := fun q hq => hlen q (by simp [hq])
    have hklen : pk.length / 256 % 256 * 256 + pk.length % 256 = pk.length := by omega
    simp only [List.length_cons, serializeKeys, List.cons_append, readKeys, hklen]
    rw [List.append_assoc]
    rw [if_neg (by simp only [List.length_append]; omega)]
    rw [List.take_left' rfl, List.drop_left' rfl, ih htail]

/-- C7: `DeserializeKeyset` is a left inverse of
`DataAvailabilityKeyset.Serialize` on keysets with at most 64 public keys
(whose `AssumedHonest` fits a `uint64` and whose key byte strings fit the
two-byte length tag, as BLS key serializations do). -/
theorem keyset_roundtrip (k : DataAvailabilityKeyset (List Nat))
    (h1 : k.AssumedHonest < 2 ^ 64) (h2 : k.PubKeys.length ≤ 64)
    (h3 : ∀ pk ∈ k.PubKeys, pk.length < 65536) :
    DeserializeKeyset (DataAvailabilityKeyset.Serialize k) = some k := by
  unfold DataAvailabilityKeyset.Serialize DeserializeKeyset
  rw [List.append_assoc]
  simp only [readUint64BE_putUint64BE k.AssumedHonest _ h1,
    readUint64BE_putUint64BE k.PubKeys.length _
      (show k.PubKeys.length < 2 ^ 64 by omega)]
  rw [if_neg (by omega)]
  rw [show serializeKeys k.PubKeys = serializeKeys k.PubKeys ++ [] by simp,
    readKeys_serializeKeys k.PubKeys [] h3]

/-- C7 witness: a keyset with threshold 2 and two keys round-trips. -/
theorem keyset_roundtrip_witness :
    DeserializeKeyset (DataAvailabilityKeyset.Serialize ⟨2, [[1, 2, 3], []]⟩)
      = some ⟨2, [[1, 2, 3], []]⟩ :=
  keyset_roundtrip ⟨2, [[1, 2, 3], []]⟩ (by decide) (by decide) (by decide)

/-! ## Inbox batch serialization: claim C8 -/

/-- Length of the serialized batch header is 40 bytes. -/
theorem batchHeaderBytes_length (m : SequencerInboxBatch) :
    (batchHeaderBytes m).length = 40 := by
  simp [batchHeaderBytes, putUint64BE]

/-- C8: on a batch with an empty cache, `Serialize` returns exactly the
40-byte header — the five fields `MinTimestamp`, `MaxTimestamp`,
`MinBlockNumber`, `MaxBlockNumber`, `AfterDelayedCount`, 8 big-endian bytes
each, in that order — followed by the payload returned by `GetData`, and a
second call on the returned batch yields the same bytes for every behaviour
of `GetData`, i.e. without refetching the data. -/
theorem sequencerInboxBatch_serialize (m : SequencerInboxBatch) (data : List Nat)
    (h : m.serialized = none) :
    SequencerInboxBatch.Serialize (.ok data) m
        = .ok (batchHeaderBytes m ++ data,
            { m with serialized := some (batchHeaderBytes m ++ data) })
    ∧ (batchHeaderBytes m ++ data).take 40 = batchHeaderBytes m
    ∧ (batchHeaderBytes m ++ data).drop 40 = data
    ∧ batchHeaderBytes m
        = putUint64BE m.TimeBounds.MinTimestamp ++ putUint64BE m.TimeBounds.MaxTimestamp ++
          putUint64BE m.TimeBounds.MinBlockNumber ++ putUint64BE m.TimeBounds.MaxBlockNumber ++
          putUint64BE m.AfterDelayedCount
    ∧ ∀ getData2 : Except String (List Nat),
        SequencerInboxBatch.Serialize getData2
            { m with serialized := some (batchHeaderBytes m ++ data) }
          = .ok (batchHeaderBytes m ++ data,
              { m with serialized := some (batchHeaderBytes m ++ data) }) := by
  refine ⟨?_, ?_, ?_, rfl, ?_⟩
  · unfold SequencerInboxBatch.Serialize
    rw [h]
    simp only [batchHeaderBytes, List.append_assoc]
  · exact List.take_left' (batchHeaderBytes_length m)
  · exact List.drop_left' (batchHeaderBytes_length m)
  · intro getData2
    unfold SequencerInboxBatch.Serialize
    rfl

/-- C8 witness: a concrete batch serializes to its header plus payload. -/
theorem sequencerInboxBatch_serialize_witness :
    SequencerInboxBatch.Serialize (.ok [9, 8])
        (⟨5, ⟨1, 2, 3, 4⟩, none⟩ : SequencerInboxBatch)
      = .ok (batchHeaderBytes ⟨5, ⟨1, 2, 3, 4⟩, none⟩ ++ [9, 8],
          { (⟨5, ⟨1, 2, 3, 4⟩, none⟩ : SequencerInboxBatch) with
            serialized := some (batchHeaderBytes ⟨5, ⟨1, 2, 3, 4⟩, none⟩ ++ [9, 8]) }) :=
  (sequencerInboxBatch_serialize ⟨5, ⟨1, 2, 3, 4⟩, none⟩ [9, 8] rfl).1

/-! ## Sequencer batching: claims C5 and C6 -/

/-- Every transaction in an assembled batch has a marshalled size within the
`maxTxDataSize` bound (or was already in the accumulator). -/
theorem drainLoop_batch_small (q : List QItem) :
    ∀ (b : List QItem) (t : Nat) (res : List (Nat × AdmitErr)) (x : QItem),
      x ∈ (drainLoop q b t res).batch →
      x ∈ b ∨ ∃ n, x.marshal = some n ∧ n ≤ maxTxDataSize := by
  induction q with
  | nil =>
    intro b t res x hx
    exact Or.inl (by simpa [drainLoop] using hx)
  | cons item rest ih =>
    intro b t res x hx
    simp only [drainLoop] at hx
    split at hx
    · exact ih _ _ _ _ hx
    · split at hx
      · exact ih _ _ _ _ hx
      · rename_i n hn
        split at hx
        · exact ih _ _ _ _ hx
        · split at hx
          · split at hx
            · exact Or.inl hx
            · exact Or.inl hx
          · rcases ih _ _ _ _ hx with hmem | hsmall
            · rcases List.mem_append.1 hmem with hb | hitem
              · exact Or.inl hb
              · refine Or.inr ⟨n, ?_, by omega⟩
                simp only [List.mem_singleton] at hitem
                rw [hitem, hn]
            · exact Or.inr hsmall

/-- C5 counterexample: submitting transactions of marshalled sizes 60000,
60000 and 40000 to an empty queue makes batch one `[tx1]` with tx2 pushed
back to the tail of the queue, behind tx3; the second batch is therefore
`[tx3, tx2]` and not `[tx2, tx3]` as the claim states. -/
theorem drainLoop_batch_order_counterexample :
    (drainLoop [⟨1, false, some 60000⟩, ⟨2, false, some 60000⟩, ⟨3, false, some 40000⟩]
        [] 0 []).batch = [⟨1, false, some 60000⟩]
    ∧ (drainLoop [⟨1, false, some 60000⟩, ⟨2, false, some 60000⟩, ⟨3, false, some 40000⟩]
        [] 0 []).queueAfter = [⟨3, false, some 40000⟩, ⟨2, false, some 60000⟩]
    ∧ (drainLoop (drainLoop [⟨1, false, some 60000⟩, ⟨2, false, some 60000⟩,
        ⟨3, false, some 40000⟩] [] 0 []).queueAfter [] 0 []).batch
        ≠ [⟨2, false, some 60000⟩, ⟨3, false, some 40000⟩] := by decide

/-- C5 amended: in the 60000/60000/40000 scenario the first batch is `[tx1]`
and tx2 is pushed back behind tx3, so the second batch is `[tx3, tx2]`;
moreover no assembled batch ever contains a transaction whose marshalled
size exceeds the 112065-byte bound, and a dequeued transaction above the
bound is answered with `ErrOversizedData` and dropped. -/
theorem drainLoop_batching_amended :
    ((drainLoop [⟨1, false, some 60000⟩, ⟨2, false, some 60000⟩, ⟨3, false, some 40000⟩]
        [] 0 []).batch = [⟨1, false, some 60000⟩]
      ∧ (drainLoop [⟨1, false, some 60000⟩, ⟨2, false, some 60000⟩, ⟨3, false, some 40000⟩]
        [] 0 []).queueAfter = [⟨3, false, some 40000⟩, ⟨2, false, some 60000⟩]
      ∧ (drainLoop (drainLoop [⟨1, false, some 60000⟩, ⟨2, false, some 60000⟩,
          ⟨3, false, some 40000⟩] [] 0 []).queueAfter [] 0 []).batch
          = [⟨3, false, some 40000⟩, ⟨2, false, some 60000⟩])
    ∧ (∀ (q : List QItem) (t : Nat) (res : List (Nat × AdmitErr)) (x : QItem),
        x ∈ (drainLoop q [] t res).batch → ∃ n, x.marshal = some n ∧ n ≤ maxTxDataSize)
    ∧ (∀ (x : QItem) (rest b : List QItem) (t : Nat) (res : List (Nat × AdmitErr))
        (n : Nat),
        x.ctxErr = false → x.marshal = some n → n > maxTxDataSize →
        drainLoop (x :: rest) b t res
          = drainLoop rest b t (res ++ [(x.id, .oversizedData)])) := by
  refine ⟨by decide, ?_, ?_⟩
  · intro q t res x hx
    rcases drainLoop_batch_small q [] t res x hx with hmem | hsmall
    · simp at hmem
    · exact hsmall
  · intro x rest b t res n hctx hm hn
    simp only [drainLoop, hctx, hm]
    rw [if_neg (by simp), if_pos hn]

/-- C5 amended witness: a single 200000-byte transaction is answered with
`ErrOversizedData` and skipped. -/
theorem drainLoop_batching_amended_witness :
    drainLoop [⟨9, false, some 200000⟩] [] 0 []
      = drainLoop [] [] 0 ([] ++ [(9, AdmitErr.oversizedData)]) :=
  drainLoop_batching_amended.2.2 ⟨9, false, some 200000⟩ [] [] 0 [] 200000 rfl rfl
    (by decide)

/-- C6 counterexample: with a successful `SequenceTransactions` and 0 error
results against 3 batched transactions, the sequencer broadcasts the
constructed mismatch error to the batch's submitters after a warning; it
does not abort the process. -/
theorem handleSequenceOutcome_mismatch_counterexample :
    handleSequenceOutcome none 0 3 = .broadcastToAll (.errorCountMismatch 0 3)
    ∧ handleSequenceOutcome none 0 3 ≠ .processAbort := by decide

/-- C6 amended: when `SequenceTransactions` succeeds but the length of
`hooks.TxErrors` differs from the number of batched transactions, the
sequencer constructs the mismatch error and handles it as a recoverable
batch-level error — logged and delivered to every submitter in the batch —
rather than aborting the process. -/
theorem handleSequenceOutcome_mismatch_broadcast (numTxErrors numTxes : Nat)
    (h : numTxErrors ≠ numTxes) :
    handleSequenceOutcome none numTxErrors numTxes
        = .broadcastToAll (.errorCountMismatch numTxErrors numTxes)
    ∧ handleSequenceOutcome none numTxErrors numTxes ≠ .processAbort := by
  unfold handleSequenceOutcome
  rw [if_pos h]
  exact ⟨rfl, by simp [BatchErr.isRetry]⟩

/-- C6 amended witness: 2 error results against 5 transactions. -/
theorem handleSequenceOutcome_mismatch_broadcast_witness :
    handleSequenceOutcome none 2 5 = .broadcastToAll (.errorCountMismatch 2 5)
    ∧ handleSequenceOutcome none 2 5 ≠ .processAbort :=
  handleSequenceOutcome_mismatch_broadcast 2 5 (by decide)

/-! ## Block producer: claims C9, C2, C3 and C4 -/

/-- C9: `ProduceBlockAdvanced` requires a clean state database: whenever the
unexpected balance delta is non-zero on entry, it panics with the
dirty-state message before any transaction is attempted, for every behaviour
of the external collaborators. -/
theorem produceBlockAdvanced_dirty_state_panics (P : ProduceParams)
    (seqHooks : SequencingHooks) (txes : List Tx) (delayedMessagesRead : Nat)
    (statedb : StateDB) (fuel : Nat)
    (h : statedb.unexpectedBalanceDelta ≠ 0) :
    ProduceBlockAdvanced P seqHooks txes delayedMessagesRead statedb fuel
      = .panicked .dirtyStateDB := by
  unfold ProduceBlockAdvanced
  exact if_pos h

/-- C9 witness: a state database with unexpected balance delta 1 panics. -/
theorem produceBlockAdvanced_dirty_state_panics_witness :
    ProduceBlockAdvanced trivialParams noopSequencingHooks [] 0 ⟨1, 0⟩ 5
      = .panicked .dirtyStateDB :=
  produceBlockAdvanced_dirty_state_panics trivialParams noopSequencingHooks [] 0
    ⟨1, 0⟩ 5 (by decide)

/-- Deconstruction of a successful `finishProduce`: the block is built from
the loop's `complete` list with the big-endian nonce, the receipts are the
loop's receipts, and the two lists have equal lengths. -/
theorem finishProduce_success2 (P : ProduceParams) (d : Nat) (ls : LoopState)
    (block : Block) (receipts : List Receipt) (txErrors : List (Option TxErr))
    (burnLogged : Bool)
    (h : finishProduce P d ls = .success block receipts txErrors burnLogged) :
    block = ⟨ls.complete, putUint64BE d⟩ ∧ receipts = ls.receipts
    ∧ ls.complete.length = ls.receipts.length := by
  unfold finishProduce at h
  simp only [] at h
  split at h
  · exact absurd h (by simp)
  · rename_i hlen
    split at h
    · split at h
      · exact absurd h (by simp)
      · injection h with hb hr hte hbl
        exact ⟨hb.symm, hr.symm, by omega⟩
    · injection h with hb hr hte hbl
      exact ⟨hb.symm, hr.symm, by omega⟩

/-- C2: every block returned by `ProduceBlockAdvanced` carries as many
receipts as transactions (the prepended internal start-of-block transaction
included, when applied), and its header nonce is the 8-byte big-endian
encoding of the `delayedMessagesRead` argument. -/
theorem produceBlockAdvanced_receipts_nonce (P : ProduceParams)
    (seqHooks : SequencingHooks) (txes : List Tx) (delayedMessagesRead : Nat)
    (statedb : StateDB) (fuel : Nat) (block : Block) (receipts : List Receipt)
    (txErrors : List (Option TxErr)) (burnLogged : Bool)
    (h : ProduceBlockAdvanced P seqHooks txes delayedMessagesRead statedb fuel
        = .success block receipts txErrors burnLogged) :
    receipts.length = block.txs.length
    ∧ block.nonce = putUint64BE delayedMessagesRead
    ∧ block.nonce.length = 8 := by
  unfold ProduceBlockAdvanced at h
  split at h
  · exact absurd h (by simp)
  · split at h
    · exact absurd h (by simp)
    · exact absurd h (by simp)
    · obtain ⟨hb, hr, hl⟩ := finishProduce_success2 _ _ _ _ _ _ _ h
      subst hb; subst hr
      exact ⟨by simpa using hl.symm, rfl, rfl⟩

/-- C2 witness: a block produced from one internal and one rejected user
transaction has one receipt for one transaction and nonce `BE8 0`. -/
theorem produceBlockAdvanced_receipts_nonce_witness :
    ([⟨[]⟩] : List Receipt).length
        = (⟨[⟨.internalTx, 21000⟩], putUint64BE 0⟩ : Block).txs.length
    ∧ (⟨[⟨.internalTx, 21000⟩], putUint64BE 0⟩ : Block).nonce = putUint64BE 0
    ∧ (⟨[⟨.internalTx, 21000⟩], putUint64BE 0⟩ : Block).nonce.length = 8 :=
  produceBlockAdvanced_receipts_nonce applyOkParams discardHooks [⟨.legacyTx 0, 100000⟩]
    0 ⟨0, 0⟩ 3 ⟨[⟨.internalTx, 21000⟩], putUint64BE 0⟩ [⟨[]⟩] [some .gasLimitReached]
    false rfl

/-- Processing one transaction preserves the receipts-per-transaction
balance of the loop state. -/
theorem processTx_len (P : ProduceParams) (hooks : SequencingHooks) (isUserTx : Bool)
    (tx : Tx) {ls ls2 : LoopState}
    (hstep : processTx P hooks isUserTx tx ls = .next ls2)
    (h : ls.complete.length = ls.receipts.length) :
    ls2.complete.length = ls2.receipts.length := by
  unfold processTx at hstep
  cases hA : attemptTx P hooks isUserTx ls.userTxsProcessed ls.blockGasLeft ls.gethGas
      ls.statedb tx with
  | failed e st =>
    rw [hA] at hstep
    simp only [] at hstep
    split at hstep <;> (injection hstep with he; subst he; exact h)
  | applied r dataGas =>
    rw [hA] at hstep
    simp only [] at hstep
    split at hstep
    · cases hstep
    · split at hstep
      · cases hstep
      · injection hstep with he
        subst he
        simp [h]

/-- Processing one transaction never ends the loop by itself. -/
theorem processTx_ne_done (P : ProduceParams) (hooks : SequencingHooks) (isUserTx : Bool)
    (tx : Tx) (ls ls2 : LoopState) :
    processTx P hooks isUserTx tx ls ≠ .done ls2 := by
  unfold processTx
  cases hA : attemptTx P hooks isUserTx ls.userTxsProcessed ls.blockGasLeft ls.gethGas
      ls.statedb tx with
  | failed e st =>
    simp only []
    split <;> simp
  | applied r dataGas =>
    simp only []
    split
    · simp
    · split <;> simp

/-- One step of the production loop preserves the receipts-per-transaction
balance. -/
theorem produceStep_len (P : ProduceParams) (seqHooks : SequencingHooks)
    (ls ls2 : LoopState) (h : ls.complete.length = ls.receipts.length)
    (hstep : produceStep P seqHooks ls = .next ls2 ∨ produceStep P seqHooks ls = .done ls2) :
    ls2.complete.length = ls2.receipts.length := by
  rcases hstep with hstep | hstep
  · unfold produceStep at hstep
    split at hstep
    · split at hstep
      · split at hstep
        · exact processTx_len _ _ _ _ hstep h
        · injection hstep with he; subst he; exact h
      · cases hstep
    · split at hstep
      · cases hstep
      · split at hstep
        · exact processTx_len _ _ _ _ hstep h
        · exact processTx_len _ _ _ _ hstep h
  · unfold produceStep at hstep
    split at hstep
    · split at hstep
      · split at hstep
        · exact absurd hstep (processTx_ne_done _ _ _ _ _ _)
        · cases hstep
      · cases hstep
    · split at hstep
      · injection hstep with he; subst he; exact h
      · split at hstep
        · exact absurd hstep (processTx_ne_done _ _ _ _ _ _)
        · exact absurd hstep (processTx_ne_done _ _ _ _ _ _)

/-- The production loop preserves the receipts-per-transaction balance. -/
theorem produceLoop_len (P : ProduceParams) (seqHooks : SequencingHooks) :
    ∀ (fuel : Nat) (ls ls2 : LoopState),
      ls.complete.length = ls.receipts.length →
      produceLoop P seqHooks fuel ls = some (.ok ls2) →
      ls2.complete.length = ls2.receipts.length := by
  intro fuel
  induction fuel with
  | zero => intro ls ls2 _ hl; cases hl
  | succ n ih =>
    intro ls ls2 h hl
    unfold produceLoop at hl
    split at hl
    · rename_i ls1 hstep
      injection hl with he
      injection he with he2
      subst he2
      exact produceStep_len P seqHooks ls _ h (Or.inr hstep)
    · exact absurd hl (by simp)
    · rename_i ls1 hstep
      exact ih ls1 ls2 (produceStep_len P seqHooks ls ls1 h (Or.inl hstep)) hl

/-- C3: when the production loop completes with final state `ls`, the
epilogue of `ProduceBlockAdvanced` compares the state's unexpected balance
delta with the expected delta accumulated during the block (deposit values
plus retryable deposit values minus parsed L2-to-L1 call values): on a
difference it panics when the unexpected delta is strictly greater (a mint)
or the chain is in debug mode, and only logs and returns the block for a
burn on a non-debug chain; on equality it returns normally. -/
theorem produceBlockAdvanced_balance_check (P : ProduceParams)
    (seqHooks : SequencingHooks) (txes : List Tx) (delayedMessagesRead : Nat)
    (statedb : StateDB) (fuel : Nat) (ls : LoopState)
    (hclean : statedb.unexpectedBalanceDelta = 0)
    (hloop : produceLoop P seqHooks fuel (initLoopState P seqHooks txes statedb)
        = some (.ok ls)) :
    ProduceBlockAdvanced P seqHooks txes delayedMessagesRead statedb fuel =
      if ls.statedb.unexpectedBalanceDelta ≠ ls.expectedBalanceDelta then
        if ls.statedb.unexpectedBalanceDelta > ls.expectedBalanceDelta
            ∨ P.debugMode = true then
          .panicked .balanceMismatch
        else .success ⟨ls.complete, putUint64BE delayedMessagesRead⟩ ls.receipts
          ls.txErrors true
      else .success ⟨ls.complete, putUint64BE delayedMessagesRead⟩ ls.receipts
        ls.txErrors false := by
  have hlen : ls.complete.length = ls.receipts.length :=
    produceLoop_len P seqHooks fuel _ ls (by simp [initLoopState]) hloop
  unfold ProduceBlockAdvanced
  rw [if_neg (by simp [hclean])]
  simp only [hloop]
  unfold finishProduce
  simp only []
  rw [if_neg (by simp [hlen])]

/-- C3 witness: a loop run in which the lone internal transaction is
rejected ends with equal deltas, and the producer returns normally. -/
theorem produceBlockAdvanced_balance_check_witness :
    ProduceBlockAdvanced trivialParams noopSequencingHooks [] 0 ⟨0, 0⟩ 2 =
      if lsFinalC3.statedb.unexpectedBalanceDelta ≠ lsFinalC3.expectedBalanceDelta then
        if lsFinalC3.statedb.unexpectedBalanceDelta > lsFinalC3.expectedBalanceDelta
            ∨ trivialParams.debugMode = true then
          .panicked .balanceMismatch
        else .success ⟨lsFinalC3.complete, putUint64BE 0⟩ lsFinalC3.receipts
          lsFinalC3.txErrors true
      else .success ⟨lsFinalC3.complete, putUint64BE 0⟩ lsFinalC3.receipts
        lsFinalC3.txErrors false :=
  produceBlockAdvanced_balance_check trivialParams noopSequencingHooks [] 0 ⟨0, 0⟩ 2
    lsFinalC3 rfl rfl

/-- C4 counterexample: a user transaction is rejected with
`ErrGasLimitReached` although no user transaction has been processed yet —
the early guard fires as soon as `blockGasLeft` is below `TxGas`, which a
single user transaction in an otherwise empty block hits whenever the ArbOS
per-block gas limit is that small (here 0); the full producer run confirms
the lone user transaction of the block is rejected this way. -/
theorem attemptTx_first_user_tx_counterexample :
    attemptTx trivialParams noopSequencingHooks true 0 0 1000000 ⟨0, 0⟩
        ⟨.legacyTx 0, 100000⟩ = .failed .gasLimitReached ⟨0, 0⟩
    ∧ ProduceBlockAdvanced applyOkParams discardHooks [⟨.legacyTx 0, 100000⟩] 0 ⟨0, 0⟩ 3
        = .success ⟨[⟨.internalTx, 21000⟩], putUint64BE 0⟩ [⟨[]⟩]
            [some .gasLimitReached] false :=
  ⟨rfl, rfl⟩

/-- C4 amended: in the producer's per-transaction gas accounting,
`dataGas = min(tx.Gas, posterCost / gasPrice)` for a positive gas price and
`computeGas = tx.Gas - dataGas` floored at the intrinsic `TxGas`; a user
transaction is rejected with `ErrGasLimitReached` immediately whenever
`blockGasLeft < TxGas` — even as the first user transaction of the block —
and otherwise, for `computeGas` exceeding `blockGasLeft`, only when at least
one user transaction has already been processed: with `blockGasLeft ≥ TxGas`
and no user transaction processed, no `ErrGasLimitReached` arises unless an
external collaborator itself returns it. -/
theorem attemptTx_gas_accounting :
    (∀ gasPrice posterCost txGas : Nat, 0 < gasPrice → txGas < 2 ^ 64 →
        dataGasFor gasPrice posterCost txGas = min txGas (posterCost / gasPrice))
    ∧ (∀ txGas dataGas : Nat, computeGasFor txGas dataGas = max TxGas (txGas - dataGas))
    ∧ (∀ (P : ProduceParams) (hooks : SequencingHooks) (uTP bGL gG : Nat) (st : StateDB)
        (tx : Tx), bGL < TxGas →
        attemptTx P hooks true uTP bGL gG st tx = .failed .gasLimitReached st)
    ∧ (∀ (P : ProduceParams) (hooks : SequencingHooks) (bGL gG : Nat) (st : StateDB)
        (tx : Tx),
        TxGas ≤ bGL →
        (∀ e, P.sender tx = .error e → e ≠ .gasLimitReached) →
        (∀ a, hooks.PreTxFilter st tx a ≠ some .gasLimitReached) →
        (∀ e, P.applyTx st tx gG = .error e → e ≠ .gasLimitReached) →
        (∀ st2 a dg rc, hooks.PostTxFilter st2 tx a dg rc ≠ some .gasLimitReached) →
        ∀ st3, attemptTx P hooks true 0 bGL gG st tx ≠ .failed .gasLimitReached st3) := by
  refine ⟨?_, ?_, ?_, ?_⟩
  · intro gasPrice posterCost txGas hpos hlt
    unfold dataGasFor MaxUint64
    simp only []
    rw [if_pos hpos, Nat.min_def]
    split_ifs <;> omega
  · intro txGas dataGas
    unfold computeGasFor TxGas
    simp only []
    split <;> omega
  · intro P hooks uTP bGL gG st tx hlt
    unfold attemptTx
    exact if_pos ⟨hlt, rfl⟩
  · intro P hooks bGL gG st tx hge hsender hpre happly hpost st3
    unfold attemptTx
    rw [if_neg (fun hc => by omega)]
    cases hs : P.sender tx with
    | error e =>
      simp only []
      intro heq
      injection heq with he1 he2
      exact hsender e hs he1
    | ok a =>
      simp only []
      cases hp : hooks.PreTxFilter st tx a with
      | some e =>
        simp only []
        intro heq
        injection heq with he1 he2
        subst he1
        exact hpre a hp
      | none =>
        simp only []
        split
        · intro heq
          injection heq with he1 he2
          cases he1
        · rw [if_neg (by simp)]
          cases ha : P.applyTx st tx gG with
          | error e =>
            simp only []
            intro heq
            injection heq with he1 he2
            exact happly e ha he1
          | ok r =>
            simp only []
            cases hpf : hooks.PostTxFilter r.newState tx a
                (dataGasFor P.gasPrice (P.posterCost st tx) tx.gas) r.receipt with
            | some e =>
              simp only []
              intro heq
              injection heq with he1 he2
              subst he1
              exact hpost r.newState a _ r.receipt hpf
            | none => simp

/-- C4 amended witness: with 20999 gas left in the block, below `TxGas`, a
user transaction is rejected with `ErrGasLimitReached` regardless of the
prior user-transaction count. -/
theorem attemptTx_gas_accounting_witness :
    attemptTx trivialParams noopSequencingHooks true 5 20999 7 ⟨0, 0⟩ ⟨.legacyTx 1, 50000⟩
      = .failed .gasLimitReached ⟨0, 0⟩ :=
  attemptTx_gas_accounting.2.2.1 trivialParams noopSequencingHooks 5 20999 7 ⟨0, 0⟩
    ⟨.legacyTx 1, 50000⟩ (by decide)
